import Mathlib

/-!
Shallow embedding of the create-stacks-dapp scaffolding CLI
(src/index.ts, src/utils.ts, src/config.js) and verification of its
natural-language specification.

JavaScript strings are modelled as Lean `String`; the handful of
JS string primitives the code uses (`trim`, `toLowerCase`, `startsWith`,
`parseInt`) are embedded explicitly over the character list.  External
effects (child processes, the filesystem, interactive input) are modelled
by an explicit environment record consumed by the orchestrator `main`.
-/

/-- `s.trim()` on the character list: drop leading and trailing whitespace. -/
def trimChars (l : List Char) : List Char :=
  ((l.dropWhile Char.isWhitespace).reverse.dropWhile Char.isWhitespace).reverse

/-- JS `String.prototype.trim`. -/
def jsTrim (s : String) : String := ⟨trimChars s.data⟩

/-- ASCII lower-casing of one character: the behaviour of
`String.prototype.toLowerCase` on the ASCII range (this model leaves
non-ASCII characters unchanged). -/
def jsToLowerChar (c : Char) : Char :=
  if 65 ≤ c.toNat ∧ c.toNat ≤ 90 then Char.ofNat (c.toNat + 32) else c

/-- JS `String.prototype.toLowerCase` (ASCII model). -/
def jsToLower (s : String) : String := ⟨s.data.map jsToLowerChar⟩

/-- JS `s.startsWith(c)` for a one-character argument. -/
def jsStartsWithChar (s : String) (c : Char) : Bool := s.data.head? == some c

/-! ## Configuration constants (src/config.js: `CONFIG`) -/

def MAX_PROJECT_NAME_LENGTH : Nat := 214

def RESERVED_NAMES : List String :=
  ["node_modules", "favicon.ico", "package.json", "index.js", "index.ts"]

def DEFAULT_COMMIT_MESSAGE : String := "Initial commit from create-stx-dapp"

/-! ## Validators (src/index.ts: `isValidProjectName`, `validateTemplate`) -/

/-- Result record `{ valid: boolean; reason?: string }`. -/
structure ValidationResult where
  valid : Bool
  reason : Option String := none
deriving Repr, DecidableEq

/-- One character of the class `[a-z0-9-_]` under the `i` flag. -/
def allowedNameChar (c : Char) : Bool :=
  ('a' ≤ c && c ≤ 'z') || ('A' ≤ c && c ≤ 'Z') || ('0' ≤ c && c ≤ '9') ||
    c == '-' || c == '_'

/-- `/^[a-z0-9-_]+$/i.test(name)`: non-empty and every character in the class. -/
def nameCharsetTest (name : String) : Bool :=
  !name.data.isEmpty && name.data.all allowedNameChar

/-- src/index.ts lines 41-63. -/
def isValidProjectName (name : String) : ValidationResult :=
  if name = "" ∨ (jsTrim name).data.length = 0 then
    ⟨false, some "Project name cannot be empty"⟩
  else if name.data.length > MAX_PROJECT_NAME_LENGTH then
    ⟨false, some "Project name must be less than 214 characters"⟩
  else if jsStartsWithChar name '.' ∨ jsStartsWithChar name '_' then
    ⟨false, some "Project name cannot start with . or _"⟩
  else if ¬ nameCharsetTest name then
    ⟨false, some "Project name can only contain letters, numbers, hyphens, and underscores"⟩
  else if RESERVED_NAMES.contains (jsToLower name) then
    ⟨false, some "Project name cannot be a reserved name"⟩
  else ⟨true, none⟩

/-- The spec's order-independent characterization of when a project name is
rejected, one disjunct per rule, stated without reference to the
implementation's control flow. -/
def specNameInvalid (name : String) : Prop :=
  (∀ c ∈ name.data, c.isWhitespace) ∨
  name.data.length > 214 ∨
  (name.data.head? = some '.' ∨ name.data.head? = some '_') ∨
  (∃ c ∈ name.data, allowedNameChar c = false) ∨
  jsToLower name ∈ RESERVED_NAMES

/-- The reason the spec predicts: that of the first failing rule, in the
spec's fixed rule order, with no accumulation. -/
def specNameReason (name : String) : Option String :=
  if ∀ c ∈ name.data, c.isWhitespace then
    some "Project name cannot be empty"
  else if name.data.length > 214 then
    some "Project name must be less than 214 characters"
  else if name.data.head? = some '.' ∨ name.data.head? = some '_' then
    some "Project name cannot start with . or _"
  else if ∃ c ∈ name.data, allowedNameChar c = false then
    some "Project name can only contain letters, numbers, hyphens, and underscores"
  else if jsToLower name ∈ RESERVED_NAMES then
    some "Project name cannot be a reserved name"
  else none

/-! ## Templates and the registry (src/index.ts lines 14-24, 65-77, 170-199) -/

structure Template where
  name : String
  description : String
  repoUrl : String
  tags : List String := []
deriving Repr, DecidableEq

def BUILT_IN_TEMPLATES : List Template :=
  [{ name := "Vite + React + Tailwind CSS",
     description := "Modern stacks starter dapp with Vite, React 19, TypeScript, and Tailwind CSS",
     repoUrl := "https://github.com/leeroyanesu/vite-stacks-dapp-template.git",
     tags := ["vite", "react", "tailwind", "typescript", "recommended"] }]

/-- src/index.ts lines 65-77.  `new URL(...)` is the host platform's URL
parser, external to this repository; it is modelled by the predicate
`urlOk`. -/
def validateTemplate (urlOk : String → Bool) (t : Template) : ValidationResult :=
  if t.name = "" ∨ t.description = "" ∨ t.repoUrl = "" then
    ⟨false, some "Template must have name, description, and repoUrl"⟩
  else if ¬ urlOk t.repoUrl then
    ⟨false, some "Template repoUrl must be a valid URL"⟩
  else ⟨true, none⟩

/-- src/utils.ts lines 36-45. -/
structure CLIError where
  message : String
  code : String := "GENERAL_ERROR"
  exitCode : Nat := 1
deriving Repr, DecidableEq

/-- src/index.ts lines 183-199, parameterized by the static registry it
filters (the code closes over `BUILT_IN_TEMPLATES`). -/
def loadTemplates (urlOk : String → Bool) (registry : List Template) :
    Except CLIError (List Template) :=
  let validTemplates := registry.filter fun t => (validateTemplate urlOk t).valid
  if validTemplates.length = 0 then
    .error ⟨"No valid templates found", "NO_TEMPLATES", 1⟩
  else .ok validTemplates

/-! ## Requirement probing (src/index.ts lines 26-31, 138-167) -/

structure PackageManager where
  name : String
  installCommand : String
  runCommand : String
  available : Bool
deriving Repr, DecidableEq

/-- The candidate list of src/index.ts lines 146-151, in priority order. -/
def packageManagerCandidates : List PackageManager :=
  [⟨"bun", "install", "", false⟩,
   ⟨"pnpm", "install", "", false⟩,
   ⟨"yarn", "install", "", false⟩,
   ⟨"npm", "install", "run ", false⟩]

structure Requirements where
  node : Bool
  git : Bool
  packageManager : Option PackageManager
deriving Repr, DecidableEq

/-- src/index.ts lines 138-167: `nodeAvail`/`gitAvail` model success of the
`node --version` and `git --version` probes, `pmAvail name` success of
`name --version`. -/
def checkRequirements (nodeAvail gitAvail : Bool) (pmAvail : String → Bool) : Requirements :=
  let probed := packageManagerCandidates.map fun pm => { pm with available := pmAvail pm.name }
  { node := nodeAvail, git := gitAvail, packageManager := probed.find? (·.available) }

/-! ## Interactive prompts (src/index.ts lines 311-349) -/

/-- src/index.ts lines 344-349. -/
def confirmAction (answer : String) : Bool :=
  jsTrim (jsToLower answer) == "y" || jsTrim (jsToLower answer) == "yes"

/-- JS `parseInt(s, 10)`: skip leading whitespace, an optional sign, then the
longest prefix of decimal digits; NaN (here `none`) when no digit is found. -/
def jsParseInt (s : String) : Option Int :=
  let l := s.data.dropWhile Char.isWhitespace
  let signAndRest : Int × List Char :=
    match l with
    | '-' :: rest => (-1, rest)
    | '+' :: rest => (1, rest)
    | _ => (1, l)
  let ds := signAndRest.2.takeWhile fun c => '0' ≤ c && c ≤ '9'
  if ds.isEmpty then none
  else some (signAndRest.1 * (ds.foldl (fun acc c => acc * 10 + (c.toNat - 48)) 0 : Nat))

/-- src/index.ts lines 311-342, modelled over the queue of pending input
lines; `none` means the queue ran dry (the real loop would keep
re-prompting). -/
def selectTemplate (templates : List Template) : List String → Option Template
  | [] => none
  | answer :: rest =>
    match jsParseInt (jsTrim answer) with
    | none => selectTemplate templates rest
    | some choice =>
      if 1 ≤ choice ∧ choice ≤ (templates.length : Int) then
        templates[(choice - 1).toNat]?
      else selectTemplate templates rest

/-! ## Project-name sanitizer (src/utils.ts lines 92-98) -/

/-- One character of the class `[a-z0-9-_]`. -/
def keepChar (c : Char) : Bool :=
  ('a' ≤ c && c ≤ 'z') || ('0' ≤ c && c ≤ '9') || c == '-' || c == '_'

/-- One character of the class `[-_]`. -/
def dashUnd (c : Char) : Bool := c == '-' || c == '_'

/-- `.replace(/[^a-z0-9-_]/g, '-')`, per character. -/
def replaceBad (c : Char) : Char := if keepChar c then c else '-'

/-- `.replace(/^[-_]+|[-_]+$/g, '')`: remove the leading and the trailing
run of `-`/`_`. -/
def stripEnds (l : List Char) : List Char :=
  ((l.dropWhile dashUnd).reverse.dropWhile dashUnd).reverse

/-- `.replace(/[-_]+/g, '-')`: each maximal run of `-`/`_` becomes one `-`. -/
def collapseRuns : List Char → List Char
  | [] => []
  | c :: cs =>
    if dashUnd c then '-' :: collapseRuns (cs.dropWhile dashUnd)
    else c :: collapseRuns cs
termination_by l => l.length
decreasing_by
  all_goals simp_wf
  all_goals exact Nat.lt_succ_of_le (List.dropWhile_sublist (l := cs) dashUnd).length_le

/-- The whole sanitizing pipeline on the character list. -/
def sanitizeChars (l : List Char) : List Char :=
  collapseRuns (stripEnds ((l.map jsToLowerChar).map replaceBad))

/-- src/utils.ts lines 92-98. -/
def sanitizeProjectName (name : String) : String :=
  ⟨sanitizeChars name.data⟩

/-! ## Manifest rewrite (src/index.ts lines 242-267) -/

/-- The fields of the template's package.json that the rewrite step touches;
`scripts` is an association list from script names to their (string)
bodies, `none` when the manifest has no `scripts` object. -/
structure PackageJson where
  name : String
  version : String
  scripts : Option (List (String × String)) := none
deriving Repr, DecidableEq

/-- JS truthiness of `packageJson.scripts && packageJson.scripts.postinstall`:
the scripts object exists and holds a `postinstall` key with a truthy
(non-empty) value. -/
def hasPostinstall (scripts : Option (List (String × String))) : Bool :=
  match scripts with
  | none => false
  | some scr =>
    match scr.lookup "postinstall" with
    | none => false
    | some v => v != ""

/-- The content the rewrite writes: src/index.ts lines 251-260. -/
def rewriteManifest (pj : PackageJson) (projectName : String) : PackageJson :=
  { pj with
    name := projectName
    version := "0.1.0"
    scripts :=
      match pj.scripts with
      | none => none
      | some scr =>
        if hasPostinstall (some scr) then some (scr.filter fun p => p.1 != "postinstall")
        else some scr }

/-! ## Observable run events and the external world -/

/-- Observable actions of one run, in order of occurrence. -/
inductive Event where
  | helpShown
  | requirementsChecked
  | listShown
  | confirmPrompted
  | dirRemoved
  | templatePrompted
  | gitCloneRun
  | gitDirRemoved
  | manifestChecked
  | manifestWarned
  | manifestFailed
  | manifestWritten (pj : PackageJson)
  | installRun
  | gitCmd (cmd : String)
  | gitStepFailedAt (cmd : String)
  | successShown
deriving Repr, DecidableEq

/-- src/index.ts lines 242-267.  `manifest` is the state of package.json in
the cloned tree: `none` when the file does not exist, `some none` when
reading or parsing it throws, `some (some pj)` when it parses to `pj`;
`writeOk` models whether `writeFileSync` succeeds.  Returns the step's
boolean result, the content successfully written (if any), and the logged
events. -/
def updatePackageJson (manifest : Option (Option PackageJson)) (writeOk : Bool)
    (projectName : String) : Bool × Option PackageJson × List Event :=
  match manifest with
  | none => (false, none, [.manifestChecked, .manifestWarned])
  | some none => (false, none, [.manifestChecked, .manifestFailed])
  | some (some pj) =>
    if writeOk then
      (true, some (rewriteManifest pj projectName),
        [.manifestChecked, .manifestWritten (rewriteManifest pj projectName)])
    else (false, none, [.manifestChecked, .manifestFailed])

/-- src/index.ts lines 216-240.  `cloneOk` models success of `git clone`,
`gitDirExists` whether the clone contains a `.git` directory, `rmGitOk`
whether `fs.rmSync` on it succeeds. -/
def cloneTemplate (cloneOk gitDirExists rmGitOk : Bool) : Bool × List Event :=
  if ¬ cloneOk then (false, [.gitCloneRun])
  else if gitDirExists then
    if rmGitOk then (true, [.gitCloneRun, .gitDirRemoved])
    else (false, [.gitCloneRun])
  else (true, [.gitCloneRun])

/-- src/index.ts lines 269-286. -/
def installDependencies (installOk : Bool) : Bool × List Event :=
  (installOk, [.installRun])

/-- The commit command of src/index.ts line 295. -/
def gitCommitCommand : String := "git commit -m \x22" ++ DEFAULT_COMMIT_MESSAGE ++ "\x22"

/-- The three commands of src/index.ts lines 292-296. -/
def gitInitCommands : List String :=
  ["git init", "git add .", gitCommitCommand]

/-- The command loop of src/index.ts lines 298-305: run the commands in
order, stop at the first failure, logging which command failed. -/
def runGitCommands (exec : String → Bool) : List String → Bool × List Event
  | [] => (true, [])
  | cmd :: rest =>
    if exec cmd then
      let r := runGitCommands exec rest
      (r.1, .gitCmd cmd :: r.2)
    else (false, [.gitCmd cmd, .gitStepFailedAt cmd])

/-- src/index.ts lines 288-309 (the version-control initialization step). -/
def initGitRepository (exec : String → Bool) : Bool × List Event :=
  runGitCommands exec gitInitCommands

/-! ## The orchestrator (src/index.ts lines 351-493) -/

structure Flags where
  help : Bool
  list : Bool
  force : Bool
deriving Repr, DecidableEq

/-- src/index.ts lines 354-359. -/
def parseFlags (args : List String) : Flags :=
  { help := args.contains "--help" || args.contains "-h"
    list := args.contains "--list" || args.contains "-l"
    force := args.contains "--force" || args.contains "-f" }

/-- src/index.ts line 414: the first argument that does not start with a
dash. -/
def projectNameArg (args : List String) : Option String :=
  (args.filter fun a => !(jsStartsWithChar a '-')).head?

/-- The external world of one invocation: command-line arguments, probe
results, filesystem and child-process outcomes, and the pending
interactive answers. -/
structure Env where
  argv : List String
  nodeAvailable : Bool
  gitAvailable : Bool
  pmAvailable : String → Bool
  registry : List Template
  urlOk : String → Bool
  dirExists : Bool
  confirmAnswer : String
  selectInputs : List String
  gitCloneOk : Bool
  gitDirExists : Bool
  rmGitOk : Bool
  manifest : Option (Option PackageJson)
  writeOk : Bool
  installOk : Bool
  gitExec : String → Bool

/-- How the process ends: `exited n` for `process.exit(n)` (or the implicit
exit 0 when `main` returns), `hung` when the run blocks forever waiting
for interactive input. -/
inductive Outcome where
  | exited (code : Nat)
  | hung
deriving Repr, DecidableEq

/-- The directory-collision handling of src/index.ts lines 435-451: the
events performed and whether the run aborts. -/
def handleCollision (dirExists force : Bool) (answer : String) : List Event × Bool :=
  if dirExists then
    if force then ([.dirRemoved], false)
    else if confirmAction answer then ([.confirmPrompted, .dirRemoved], false)
    else ([.confirmPrompted], true)
  else ([], false)

/-- The orchestrator, src/index.ts lines 351-493 (`main` together with the
top-level catch that routes a thrown `CLIError` through `handleError`).
Produces the event trace and the process outcome. -/
def mainFlow (env : Env) : List Event × Outcome :=
  let flags := parseFlags env.argv
  if flags.help then ([.helpShown], .exited 0)
  else
    let requirements := checkRequirements env.nodeAvailable env.gitAvailable env.pmAvailable
    let ev0 : List Event := [.requirementsChecked]
    if requirements.node = false then (ev0, .exited 1)
    else if requirements.git = false then (ev0, .exited 1)
    else
      match requirements.packageManager with
      | none => (ev0, .exited 1)
      | some _pm =>
        match loadTemplates env.urlOk env.registry with
        | .error e => (ev0, .exited e.exitCode)
        | .ok templates =>
          if flags.list then (ev0 ++ [.listShown], .exited 0)
          else
            match projectNameArg env.argv with
            | none => (ev0, .exited 1)
            | some projectName =>
              if (isValidProjectName projectName).valid = false then (ev0, .exited 1)
              else
                let coll := handleCollision env.dirExists flags.force env.confirmAnswer
                if coll.2 then (ev0 ++ coll.1, .exited 1)
                else
                  let ev1 := ev0 ++ coll.1 ++ [.templatePrompted]
                  match selectTemplate templates env.selectInputs with
                  | none => (ev1, .hung)
                  | some _tmpl =>
                    let clone := cloneTemplate env.gitCloneOk env.gitDirExists env.rmGitOk
                    if clone.1 = false then (ev1 ++ clone.2, .exited 1)
                    else
                      let manifest := updatePackageJson env.manifest env.writeOk projectName
                      let install := installDependencies env.installOk
                      let gitInit := initGitRepository env.gitExec
                      (ev1 ++ clone.2 ++ manifest.2.2 ++ install.2 ++ gitInit.2 ++
                        [.successShown], .exited 0)

/-- A fully healthy world, used to instantiate the theorems at concrete
inputs. -/
def baseEnv : Env :=
  { argv := ["my-dapp"]
    nodeAvailable := true
    gitAvailable := true
    pmAvailable := fun _ => true
    registry := BUILT_IN_TEMPLATES
    urlOk := fun _ => true
    dirExists := false
    confirmAnswer := ""
    selectInputs := ["1"]
    gitCloneOk := true
    gitDirExists := true
    rmGitOk := true
    manifest := some (some ⟨"vite-stacks-dapp-template", "1.0.0",
      some [("dev", "vite"), ("postinstall", "echo setup")]⟩)
    writeOk := true
    installOk := true
    gitExec := fun _ => true }

/-- The healthy world, except that removing the cloned `.git` directory
fails. -/
def envRmGitFails : Env := { baseEnv with rmGitOk := false }

/-- Invocation with the list flag while the runtime probe fails. -/
def envListNoNode : Env := { baseEnv with argv := ["--list"], nodeAvailable := false }

/-- Healthy invocation with the list flag. -/
def envListOk : Env := { baseEnv with argv := ["--list"] }

/-- Invocation with the list flag while the version-control probe fails. -/
def envListNoGit : Env := { baseEnv with argv := ["--list"], gitAvailable := false }

/-- Invocation with the list flag while no package manager probe succeeds. -/
def envListNoPm : Env := { baseEnv with argv := ["--list"], pmAvailable := fun _ => false }

/-- Healthy world whose target directory already exists and whose user
answers the overwrite prompt negatively. -/
def envDeclined : Env := { baseEnv with dirExists := true, confirmAnswer := "no thanks" }

/-- Healthy world whose cloned tree has no package.json. -/
def envNoManifest : Env := { baseEnv with manifest := none }

/-- Healthy world where the stage-all command of the version-control
initialization step fails. -/
def envGitAddFails : Env := { baseEnv with gitExec := fun c => c != "git add ." }

/-- Decidable equality of load results, for evaluating concrete runs. -/
instance : DecidableEq (Except CLIError (List Template))
  | .error e, .error f =>
    if h : e = f then .isTrue (by rw [h])
    else .isFalse (fun hc => h (by injection hc))
  | .error _, .ok _ => .isFalse (fun hc => Except.noConfusion hc)
  | .ok _, .error _ => .isFalse (fun hc => Except.noConfusion hc)
  | .ok a, .ok b =>
    if h : a = b then .isTrue (by rw [h])
    else .isFalse (fun hc => h (by injection hc))

/-! ## Supporting lemmas -/

theorem collapseRuns_nil_iff (l : List Char) : collapseRuns l = [] ↔ l = [] := by
  cases l with
  | nil => simp [collapseRuns]
  | cons c cs => rw [collapseRuns]; split <;> simp

theorem head?_dropWhile_not (p : Char → Bool) (l : List Char) {c : Char}
    (h : (l.dropWhile p).head? = some c) : p c = false := by
  induction l with
  | nil => simp [List.dropWhile] at h
  | cons x xs ih =>
    rw [List.dropWhile_cons] at h
    split at h
    · exact ih h
    · simp at h
      subst h
      simp_all

theorem mem_collapseRuns (l : List Char) (c : Char) (h : c ∈ collapseRuns l) :
    c = '-' ∨ (c ∈ l ∧ dashUnd c = false) := by
  induction l using collapseRuns.induct with
  | case1 => simp [collapseRuns] at h
  | case2 x xs hx ih =>
    rw [collapseRuns, if_pos hx] at h
    rcases List.mem_cons.mp h with h1 | h1
    · exact Or.inl h1
    · rcases ih h1 with h2 | ⟨h2, h3⟩
      · exact Or.inl h2
      · exact Or.inr ⟨List.mem_cons_of_mem _ ((List.dropWhile_sublist _).mem h2), h3⟩
  | case3 x xs hx ih =>
    rw [collapseRuns, if_neg hx] at h
    rcases List.mem_cons.mp h with h1 | h1
    · subst h1; exact Or.inr ⟨List.mem_cons_self _ _, by simpa using hx⟩
    · rcases ih h1 with h2 | ⟨h2, h3⟩
      · exact Or.inl h2
      · exact Or.inr ⟨List.mem_cons_of_mem _ h2, h3⟩

theorem head?_collapseRuns (l : List Char) :
    (collapseRuns l).head? = l.head?.map (fun c => if dashUnd c then '-' else c) := by
  cases l with
  | nil => simp [collapseRuns]
  | cons c cs =>
    rw [collapseRuns]
    split <;> simp_all

theorem chain'_collapseRuns (l : List Char) :
    List.Chain' (fun a b => ¬(dashUnd a = true ∧ dashUnd b = true)) (collapseRuns l) := by
  induction l using collapseRuns.induct with
  | case1 => simp [collapseRuns]
  | case2 x xs hx ih =>
    rw [collapseRuns, if_pos hx, List.chain'_cons']
    refine ⟨?_, ih⟩
    intro y hy
    rw [head?_collapseRuns] at hy
    cases hh : (xs.dropWhile dashUnd).head? with
    | none => rw [hh] at hy; simp at hy
    | some z =>
      rw [hh] at hy; simp at hy
      have hz : dashUnd z = false := head?_dropWhile_not _ _ hh
      rw [hz] at hy; simp at hy
      subst hy
      simp [hz]
  | case3 x xs hx ih =>
    rw [collapseRuns, if_neg hx, List.chain'_cons']
    refine ⟨?_, ih⟩
    intro y hy
    simp_all

theorem getLast?_dropWhile_of_ne_nil (p : Char → Bool) (l : List Char)
    (h : l.dropWhile p ≠ []) : (l.dropWhile p).getLast? = l.getLast? := by
  conv_rhs => rw [← List.takeWhile_append_dropWhile p l]
  rw [List.getLast?_append]
  have hs : (l.dropWhile p).getLast?.isSome := List.getLast?_isSome.mpr h
  cases hh : (l.dropWhile p).getLast? with
  | none => rw [hh] at hs; simp at hs
  | some x => simp [Option.or]

theorem getLast?_cons_of_some {x z : Char} {xs : List Char} (h : xs.getLast? = some z) :
    (x :: xs).getLast? = some z := by
  rw [List.getLast?_cons, h]; rfl

theorem getLast?_cons_elim {x c : Char} {xs : List Char} (h : (x :: xs).getLast? = some c) :
    xs.getLast? = some c ∨ (xs = [] ∧ c = x) := by
  rw [List.getLast?_cons] at h
  cases hgl : xs.getLast? with
  | none =>
    right
    refine ⟨?_, ?_⟩
    · have : ¬ xs.getLast?.isSome = true := by rw [hgl]; simp
      by_contra hne
      exact this (List.getLast?_isSome.mpr hne)
    · rw [hgl] at h; simp at h; exact h.symm
  | some z =>
    left
    rw [hgl] at h
    simp at h
    rw [h]

theorem getLast?_collapseRuns (l : List Char)
    (hl : ∀ c, l.getLast? = some c → dashUnd c = false) :
    ∀ c, (collapseRuns l).getLast? = some c → dashUnd c = false := by
  induction l using collapseRuns.induct with
  | case1 => intro c hc; simp [collapseRuns] at hc
  | case2 x xs hx ih =>
    intro c hc
    rw [collapseRuns, if_pos hx] at hc
    rcases getLast?_cons_elim hc with h1 | ⟨h1, h2⟩
    · by_cases hxs : xs.dropWhile dashUnd = []
      · rw [hxs] at h1; simp [collapseRuns] at h1
      · refine ih ?_ c h1
        intro d hd
        rw [getLast?_dropWhile_of_ne_nil _ _ hxs] at hd
        exact hl d (getLast?_cons_of_some hd)
    · subst h2
      exfalso
      have hxs : xs.dropWhile dashUnd = [] := (collapseRuns_nil_iff _).mp h1
      have hxe : ∀ y ∈ xs, dashUnd y = true := List.dropWhile_eq_nil_iff.mp hxs
      cases hgl : xs.getLast? with
      | none =>
        have hxe2 : xs = [] := by
          by_contra hne
          have := List.getLast?_isSome.mpr hne
          rw [hgl] at this; simp at this
        subst hxe2
        have := hl x (by simp)
        simp [hx] at this
      | some z =>
        have hzd := hxe z (List.mem_of_mem_getLast? hgl)
        have := hl z (getLast?_cons_of_some hgl)
        simp [hzd] at this
  | case3 x xs hx ih =>
    intro c hc
    rw [collapseRuns, if_neg hx] at hc
    rcases getLast?_cons_elim hc with h1 | ⟨h1, h2⟩
    · refine ih ?_ c h1
      intro d hd
      exact hl d (getLast?_cons_of_some hd)
    · subst h2
      have hx2 : xs = [] := (collapseRuns_nil_iff _).mp h1
      subst hx2
      exact hl c (by simp)

theorem stripEnds_decomp (l : List Char) :
    l.dropWhile dashUnd =
      stripEnds l ++ (((l.dropWhile dashUnd).reverse.takeWhile dashUnd).reverse) := by
  unfold stripEnds
  conv_lhs => rw [← List.reverse_reverse (l.dropWhile dashUnd)]
  rw [← List.reverse_append]
  congr 1
  rw [List.takeWhile_append_dropWhile]

theorem mem_stripEnds (l : List Char) (c : Char) (h : c ∈ stripEnds l) : c ∈ l := by
  unfold stripEnds at h
  rw [List.mem_reverse] at h
  exact (List.dropWhile_sublist _).mem (List.mem_reverse.mp ((List.dropWhile_sublist _).mem h))

theorem head?_stripEnds (l : List Char) (c : Char) (h : (stripEnds l).head? = some c) :
    dashUnd c = false := by
  have hde := stripEnds_decomp l
  have hh : (l.dropWhile dashUnd).head? = some c := by
    rw [hde, List.head?_append, h]; rfl
  exact head?_dropWhile_not _ _ hh

theorem getLast?_stripEnds (l : List Char) (c : Char) (h : (stripEnds l).getLast? = some c) :
    dashUnd c = false := by
  unfold stripEnds at h
  rw [List.getLast?_reverse] at h
  exact head?_dropWhile_not _ _ h

theorem char_toNat_ofNat (n : Nat) (h : n.isValidChar) : (Char.ofNat n).toNat = n := by
  simp [Char.ofNat, h, Char.ofNatAux, Char.toNat, UInt32.toNat, BitVec.toNat_ofNatLt]

theorem jsToLowerChar_of_keep (c : Char) (h : keepChar c = true) : jsToLowerChar c = c := by
  unfold jsToLowerChar
  rw [if_neg]
  intro hcond
  simp only [keepChar, Bool.or_eq_true, Bool.and_eq_true, decide_eq_true_eq, beq_iff_eq] at h
  rcases h with ((⟨h1, h2⟩ | ⟨h1, h2⟩) | h1) | h1
  · have hn : 97 ≤ c.toNat := h1
    omega
  · have hn : 48 ≤ c.toNat := h1
    have hn2 : c.toNat ≤ 57 := h2
    omega
  · have hn : c.toNat = 45 := (congrArg Char.toNat h1).trans (by decide)
    omega
  · have hn : c.toNat = 95 := (congrArg Char.toNat h1).trans (by decide)
    omega

theorem isWhitespace_eq_false_of_toNat (c : Char) (h9 : c.toNat ≠ 9) (h10 : c.toNat ≠ 10)
    (h13 : c.toNat ≠ 13) (h32 : c.toNat ≠ 32) : c.isWhitespace = false := by
  simp only [Char.isWhitespace, Bool.or_eq_false_iff, decide_eq_false_iff_not]
  refine ⟨⟨⟨fun he => ?_, fun he => ?_⟩, fun he => ?_⟩, fun he => ?_⟩
  · exact h32 ((congrArg Char.toNat he).trans (by decide))
  · exact h9 ((congrArg Char.toNat he).trans (by decide))
  · exact h13 ((congrArg Char.toNat he).trans (by decide))
  · exact h10 ((congrArg Char.toNat he).trans (by decide))

theorem isWhitespace_jsToLowerChar (c : Char) :
    (jsToLowerChar c).isWhitespace = c.isWhitespace := by
  unfold jsToLowerChar
  by_cases h : 65 ≤ c.toNat ∧ c.toNat ≤ 90
  · rw [if_pos h]
    have hv : (Char.ofNat (c.toNat + 32)).toNat = c.toNat + 32 :=
      char_toNat_ofNat _ (Or.inl (by omega))
    rw [isWhitespace_eq_false_of_toNat _ (by rw [hv]; omega) (by rw [hv]; omega)
          (by rw [hv]; omega) (by rw [hv]; omega),
        isWhitespace_eq_false_of_toNat c (by omega) (by omega) (by omega) (by omega)]
  · rw [if_neg h]

theorem map_id_of_fix {f : Char → Char} {l : List Char} (h : ∀ c ∈ l, f c = c) :
    l.map f = l := by
  induction l with
  | nil => rfl
  | cons x xs ih =>
    simp only [List.map_cons]
    rw [h x (by simp), ih (fun c hc => h c (by simp [hc]))]

theorem dropWhile_eq_self_of_head (p : Char → Bool) (l : List Char)
    (h : ∀ c, l.head? = some c → p c = false) : l.dropWhile p = l := by
  cases l with
  | nil => rfl
  | cons x xs =>
    have := h x rfl
    simp [List.dropWhile_cons, this]

theorem stripEnds_eq_self (l : List Char)
    (hh : ∀ c, l.head? = some c → dashUnd c = false)
    (hl : ∀ c, l.getLast? = some c → dashUnd c = false) : stripEnds l = l := by
  unfold stripEnds
  rw [dropWhile_eq_self_of_head _ _ hh]
  rw [dropWhile_eq_self_of_head _ _ (fun c hc => hl c (by rwa [List.head?_reverse] at hc))]
  exact List.reverse_reverse l

theorem collapseRuns_eq_self (l : List Char)
    (hd : ∀ c ∈ l, dashUnd c = true → c = '-')
    (hc : List.Chain' (fun a b => ¬(dashUnd a = true ∧ dashUnd b = true)) l) :
    collapseRuns l = l := by
  induction l using collapseRuns.induct with
  | case1 => rw [collapseRuns]
  | case2 x xs hx ih =>
    rw [collapseRuns, if_pos hx]
    have hx' : x = '-' := hd x (by simp) hx
    rw [List.chain'_cons'] at hc
    have hdrop : xs.dropWhile dashUnd = xs := by
      apply dropWhile_eq_self_of_head
      intro c hcc
      by_contra hcd
      simp only [Bool.not_eq_false] at hcd
      exact (hc.1 c hcc) ⟨hx, hcd⟩
    rw [hdrop] at ih ⊢
    rw [ih (fun c hcm hcd => hd c (by simp [hcm]) hcd) hc.2, hx']
  | case3 x xs hx ih =>
    rw [collapseRuns, if_neg hx]
    rw [List.chain'_cons'] at hc
    rw [ih (fun c hcm hcd => hd c (by simp [hcm]) hcd) hc.2]

theorem keepChar_replaceBad (c : Char) : keepChar (replaceBad c) = true := by
  unfold replaceBad
  split
  · assumption
  · decide

theorem mem_sanitizeChars (l : List Char) (c : Char) (h : c ∈ sanitizeChars l) :
    c = '-' ∨ (keepChar c = true ∧ dashUnd c = false) := by
  unfold sanitizeChars at h
  rcases mem_collapseRuns _ _ h with h1 | ⟨h1, h2⟩
  · exact Or.inl h1
  · refine Or.inr ⟨?_, h2⟩
    have hm := mem_stripEnds _ _ h1
    rcases List.mem_map.mp hm with ⟨b, _, hb⟩
    rw [← hb]
    exact keepChar_replaceBad b

theorem head?_sanitizeChars (l : List Char) (c : Char) (h : (sanitizeChars l).head? = some c) :
    dashUnd c = false := by
  unfold sanitizeChars at h
  rw [head?_collapseRuns] at h
  cases hh : (stripEnds ((l.map jsToLowerChar).map replaceBad)).head? with
  | none => rw [hh] at h; simp at h
  | some z =>
    rw [hh] at h
    have hz := head?_stripEnds _ _ hh
    simp [hz] at h
    rw [← h]
    exact hz

theorem getLast?_sanitizeChars (l : List Char) (c : Char)
    (h : (sanitizeChars l).getLast? = some c) : dashUnd c = false := by
  unfold sanitizeChars at h
  exact getLast?_collapseRuns _ (fun d hd => getLast?_stripEnds _ _ hd) c h

theorem chain'_sanitizeChars (l : List Char) :
    List.Chain' (fun a b => ¬(dashUnd a = true ∧ dashUnd b = true)) (sanitizeChars l) :=
  chain'_collapseRuns _

theorem sanitizeChars_fixed (l : List Char) :
    sanitizeChars (sanitizeChars l) = sanitizeChars l := by
  have hkeep : ∀ c ∈ sanitizeChars l, keepChar c = true := by
    intro c hc
    rcases mem_sanitizeChars l c hc with h | ⟨h, _⟩
    · rw [h]; decide
    · exact h
  conv_lhs => rw [sanitizeChars]
  rw [map_id_of_fix (fun c hc => jsToLowerChar_of_keep c (hkeep c hc))]
  rw [map_id_of_fix (fun c hc => by unfold replaceBad; rw [if_pos (hkeep c hc)])]
  rw [stripEnds_eq_self _ (head?_sanitizeChars l) (getLast?_sanitizeChars l)]
  refine collapseRuns_eq_self _ ?_ (chain'_sanitizeChars l)
  intro c hc hd
  rcases mem_sanitizeChars l c hc with h | ⟨_, h⟩
  · exact h
  · rw [h] at hd; simp at hd

theorem charRange_of_keep_notdash (c : Char) (hk : keepChar c = true) (hd : dashUnd c = false) :
    ('a' ≤ c ∧ c ≤ 'z') ∨ ('0' ≤ c ∧ c ≤ '9') := by
  simp only [keepChar, Bool.or_eq_true, Bool.and_eq_true, decide_eq_true_eq, beq_iff_eq] at hk
  simp only [dashUnd, Bool.or_eq_false_iff, beq_eq_false_iff_ne, ne_eq] at hd
  rcases hk with ((h | h) | h) | h
  · exact Or.inl h
  · exact Or.inr h
  · exact absurd h hd.1
  · exact absurd h hd.2

/-- C9: sanitizeProjectName is idempotent, and its output contains only
lowercase letters, digits and hyphens - never an underscore, never two
consecutive hyphens, and never a leading or trailing hyphen. -/
theorem claim_C9_sanitizeProjectName (s : String) :
    sanitizeProjectName (sanitizeProjectName s) = sanitizeProjectName s ∧
    (∀ c ∈ (sanitizeProjectName s).data,
      (('a' ≤ c ∧ c ≤ 'z') ∨ ('0' ≤ c ∧ c ≤ '9') ∨ c = '-') ∧ c ≠ '_') ∧
    List.Chain' (fun a b => ¬(a = '-' ∧ b = '-')) (sanitizeProjectName s).data ∧
    (sanitizeProjectName s).data.head? ≠ some '-' ∧
    (sanitizeProjectName s).data.getLast? ≠ some '-' := by
  refine ⟨?_, ?_, ?_, ?_, ?_⟩
  · show (⟨sanitizeChars (sanitizeChars s.data)⟩ : String) = (⟨sanitizeChars s.data⟩ : String)
    rw [sanitizeChars_fixed]
  · intro c hc
    have hc' : c ∈ sanitizeChars s.data := hc
    constructor
    · rcases mem_sanitizeChars _ _ hc' with h | ⟨hk, hd⟩
      · exact Or.inr (Or.inr h)
      · rcases charRange_of_keep_notdash c hk hd with h | h
        · exact Or.inl h
        · exact Or.inr (Or.inl h)
    · intro he
      rcases mem_sanitizeChars _ _ hc' with h | ⟨_, hd⟩
      · rw [he] at h; exact absurd h (by decide)
      · rw [he] at hd; simp [dashUnd] at hd
  · refine List.Chain'.imp ?_ (chain'_sanitizeChars s.data)
    rintro a b hab ⟨ha, hb⟩
    exact hab ⟨by rw [ha]; rfl, by rw [hb]; rfl⟩
  · intro h
    have := head?_sanitizeChars s.data '-' h
    simp [dashUnd] at this
  · intro h
    have := getLast?_sanitizeChars s.data '-' h
    simp [dashUnd] at this

theorem trimChars_map_lower (l : List Char) :
    trimChars (l.map jsToLowerChar) = (trimChars l).map jsToLowerChar := by
  have hfun : (Char.isWhitespace ∘ jsToLowerChar) = Char.isWhitespace :=
    funext isWhitespace_jsToLowerChar
  unfold trimChars
  rw [List.dropWhile_map, hfun, ← List.map_reverse, List.dropWhile_map, hfun, ← List.map_reverse]

theorem jsTrim_jsToLower (s : String) :
    jsTrim (jsToLower s) = jsToLower (jsTrim s) := by
  show (⟨trimChars (s.data.map jsToLowerChar)⟩ : String) = ⟨(trimChars s.data).map jsToLowerChar⟩
  rw [trimChars_map_lower]

theorem confirmAction_iff (answer : String) :
    confirmAction answer = true ↔
      (jsToLower (jsTrim answer) = "y" ∨ jsToLower (jsTrim answer) = "yes") := by
  unfold confirmAction
  rw [jsTrim_jsToLower]
  simp

theorem mainFlow_reduce (env : Env) (ts : List Template) (pn : String)
    (hh : (parseFlags env.argv).help = false)
    (hn : env.nodeAvailable = true)
    (hg : env.gitAvailable = true)
    (hpm : (checkRequirements env.nodeAvailable env.gitAvailable env.pmAvailable).packageManager.isSome = true)
    (hlt : loadTemplates env.urlOk env.registry = Except.ok ts)
    (hl : (parseFlags env.argv).list = false)
    (hpn : projectNameArg env.argv = some pn)
    (hv : (isValidProjectName pn).valid = true) :
    mainFlow env =
      (let coll := handleCollision env.dirExists (parseFlags env.argv).force env.confirmAnswer
       if coll.2 then ([.requirementsChecked] ++ coll.1, .exited 1)
       else
         let ev1 : List Event := [.requirementsChecked] ++ coll.1 ++ [.templatePrompted]
         match selectTemplate ts env.selectInputs with
         | none => (ev1, .hung)
         | some _tmpl =>
           let clone := cloneTemplate env.gitCloneOk env.gitDirExists env.rmGitOk
           if clone.1 = false then (ev1 ++ clone.2, .exited 1)
           else
             (ev1 ++ clone.2 ++ (updatePackageJson env.manifest env.writeOk pn).2.2 ++
               (installDependencies env.installOk).2 ++ (initGitRepository env.gitExec).2 ++
               [.successShown], .exited 0)) := by
  obtain ⟨pm, hpm'⟩ := Option.isSome_iff_exists.mp hpm
  unfold mainFlow
  rw [if_neg (by rw [hh]; exact Bool.false_ne_true)]
  rw [if_neg (show ¬((checkRequirements env.nodeAvailable env.gitAvailable
    env.pmAvailable).node = false) by simp [checkRequirements, hn])]
  rw [if_neg (show ¬((checkRequirements env.nodeAvailable env.gitAvailable
    env.pmAvailable).git = false) by simp [checkRequirements, hg])]
  rw [hpm', hlt, hpn]
  simp only [hl, hv, Bool.false_eq_true, Bool.true_eq_false, if_false]

theorem handleCollision_enum (d f : Bool) (a : String) :
    (handleCollision d f a).1 = [] ∨ (handleCollision d f a).1 = [Event.dirRemoved] ∨
    (handleCollision d f a).1 = [Event.confirmPrompted, Event.dirRemoved] ∨
    (handleCollision d f a).1 = [Event.confirmPrompted] := by
  unfold handleCollision
  split_ifs <;> simp

theorem clone_events_enum (a b c : Bool) :
    (cloneTemplate a b c).2 = [Event.gitCloneRun] ∨
    (cloneTemplate a b c).2 = [Event.gitCloneRun, Event.gitDirRemoved] := by
  cases a <;> cases b <;> cases c <;> simp [cloneTemplate]

theorem update_events_enum (m : Option (Option PackageJson)) (w : Bool) (pn : String) :
    (updatePackageJson m w pn).2.2 = [Event.manifestChecked, Event.manifestWarned] ∨
    (updatePackageJson m w pn).2.2 = [Event.manifestChecked, Event.manifestFailed] ∨
    ∃ pj, (updatePackageJson m w pn).2.2 =
      [Event.manifestChecked, Event.manifestWritten pj] := by
  match m with
  | none => left; rfl
  | some none => right; left; rfl
  | some (some pj) =>
    cases w
    · right; left; rfl
    · right; right; exact ⟨rewriteManifest pj pn, rfl⟩

theorem git_events_shape (exec : String → Bool) (cmds : List String) :
    ∀ e ∈ (runGitCommands exec cmds).2,
      (∃ c ∈ cmds, e = Event.gitCmd c) ∨ (∃ c ∈ cmds, e = Event.gitStepFailedAt c) := by
  induction cmds with
  | nil => intro e he; simp [runGitCommands] at he
  | cons c cs ih =>
    intro e he
    rw [runGitCommands] at he
    split at he
    · rcases List.mem_cons.mp he with h | h
      · exact Or.inl ⟨c, by simp, h⟩
      · rcases ih e h with ⟨d, hd, he'⟩ | ⟨d, hd, he'⟩
        · exact Or.inl ⟨d, by simp [hd], he'⟩
        · exact Or.inr ⟨d, by simp [hd], he'⟩
    · rcases List.mem_cons.mp he with h | h
      · exact Or.inl ⟨c, by simp, h⟩
      · simp at h
        subst h
        exact Or.inr ⟨c, by simp, rfl⟩

theorem trimChars_eq_nil_iff (l : List Char) :
    trimChars l = [] ↔ ∀ c ∈ l, c.isWhitespace := by
  unfold trimChars
  rw [List.reverse_eq_nil_iff, List.dropWhile_eq_nil_iff]
  constructor
  · intro h c hc
    rcases List.mem_append.mp
        ((List.takeWhile_append_dropWhile (p := Char.isWhitespace) (l := l)) ▸ hc) with h1 | h2
    · exact List.mem_takeWhile_imp h1
    · exact h c (List.mem_reverse.mpr h2)
  · intro h c hc
    exact h c ((List.dropWhile_sublist _).mem (List.mem_reverse.mp hc))

theorem cond1_iff (name : String) :
    (name = "" ∨ (jsTrim name).data.length = 0) ↔ ∀ c ∈ name.data, c.isWhitespace := by
  rw [List.length_eq_zero]
  show _ ∨ trimChars name.data = [] ↔ _
  rw [trimChars_eq_nil_iff]
  constructor
  · rintro (h | h)
    · intro c hc; rw [h] at hc; simp at hc
    · exact h
  · exact fun h => Or.inr h

theorem cond3_iff (name : String) :
    (jsStartsWithChar name '.' = true ∨ jsStartsWithChar name '_' = true) ↔
      (name.data.head? = some '.' ∨ name.data.head? = some '_') := by
  simp [jsStartsWithChar]

theorem cond4_iff (name : String) (hne : name.data ≠ []) :
    (¬ nameCharsetTest name = true) ↔ ∃ c ∈ name.data, allowedNameChar c = false := by
  simp [nameCharsetTest, hne]

theorem cond5_iff (name : String) :
    (RESERVED_NAMES.contains (jsToLower name) = true) ↔ jsToLower name ∈ RESERVED_NAMES := by
  exact List.elem_iff

theorem isValidProjectName_reason_eq (name : String) :
    (isValidProjectName name).reason = specNameReason name := by
  rw [isValidProjectName, specNameReason]
  by_cases p1 : ∀ c ∈ name.data, c.isWhitespace
  · rw [if_pos ((cond1_iff name).mpr p1), if_pos p1]
  · rw [if_neg (fun h => p1 ((cond1_iff name).mp h)), if_neg p1]
    have hne : name.data ≠ [] := by
      intro h; exact p1 (by intro c hc; rw [h] at hc; simp at hc)
    by_cases p2 : name.data.length > 214
    · rw [if_pos (show name.data.length > MAX_PROJECT_NAME_LENGTH from p2), if_pos p2]
    · rw [if_neg (show ¬ name.data.length > MAX_PROJECT_NAME_LENGTH from p2), if_neg p2]
      by_cases p3 : name.data.head? = some '.' ∨ name.data.head? = some '_'
      · rw [if_pos ((cond3_iff name).mpr p3), if_pos p3]
      · rw [if_neg (fun h => p3 ((cond3_iff name).mp h)), if_neg p3]
        by_cases p4 : ∃ c ∈ name.data, allowedNameChar c = false
        · rw [if_pos ((cond4_iff name hne).mpr p4), if_pos p4]
        · rw [if_neg (fun h => p4 ((cond4_iff name hne).mp h)), if_neg p4]
          by_cases p5 : jsToLower name ∈ RESERVED_NAMES
          · rw [if_pos ((cond5_iff name).mpr p5), if_pos p5]
          · rw [if_neg (fun h => p5 ((cond5_iff name).mp h)), if_neg p5]

theorem isValidProjectName_valid_iff_reason (name : String) :
    (isValidProjectName name).valid = false ↔ (isValidProjectName name).reason ≠ none := by
  unfold isValidProjectName
  split_ifs <;> simp

theorem specNameReason_ne_none_iff (name : String) :
    specNameReason name ≠ none ↔ specNameInvalid name := by
  unfold specNameReason specNameInvalid
  split_ifs <;> simp_all

/-- C3: a project name is rejected exactly when it is empty or
whitespace-only, exceeds length 214, starts with a dot or underscore,
contains a character outside the class letters/digits/hyphen/underscore, or
case-insensitively equals a reserved name; the reason reported is that of
the first failing rule in that order, with no accumulation; and
"my-app_1" is accepted. -/
theorem claim_C3_validateProjectName (name : String) :
    ((isValidProjectName name).valid = false ↔ specNameInvalid name) ∧
    (isValidProjectName name).reason = specNameReason name ∧
    isValidProjectName "my-app_1" = ⟨true, none⟩ := by
  refine ⟨?_, isValidProjectName_reason_eq name, by decide⟩
  rw [isValidProjectName_valid_iff_reason, isValidProjectName_reason_eq]
  exact specNameReason_ne_none_iff name

theorem claim_C3_witness :
    (isValidProjectName "index.js").valid = false ∧
    isValidProjectName "my-app_1" = ⟨true, none⟩ := by
  refine ⟨(claim_C3_validateProjectName "index.js").1.mpr ?_, (claim_C3_validateProjectName "x").2.2⟩
  refine Or.inr (Or.inr (Or.inr (Or.inl ⟨'.', by decide, by decide⟩)))

/-- C4: the requirement probe selects the first available package manager
in the fixed priority order bun, pnpm, yarn, npm, and selects none exactly
when none of the four candidates is available. -/
theorem claim_C4_packageManagerPriority (nodeAvail gitAvail : Bool) (pmAvail : String → Bool) :
    ((checkRequirements nodeAvail gitAvail pmAvail).packageManager =
      if pmAvail "bun" then some ⟨"bun", "install", "", true⟩
      else if pmAvail "pnpm" then some ⟨"pnpm", "install", "", true⟩
      else if pmAvail "yarn" then some ⟨"yarn", "install", "", true⟩
      else if pmAvail "npm" then some ⟨"npm", "install", "run ", true⟩
      else none) ∧
    ((checkRequirements nodeAvail gitAvail pmAvail).packageManager = none ↔
      pmAvail "bun" = false ∧ pmAvail "pnpm" = false ∧ pmAvail "yarn" = false ∧
        pmAvail "npm" = false) := by
  cases h1 : pmAvail "bun" <;> cases h2 : pmAvail "pnpm" <;> cases h3 : pmAvail "yarn" <;>
    cases h4 : pmAvail "npm" <;>
    simp [checkRequirements, packageManagerCandidates, List.find?, h1, h2, h3, h4]

theorem claim_C4_witness :
    (checkRequirements true true (fun pm => pm == "yarn" || pm == "npm")).packageManager =
      some ⟨"yarn", "install", "", true⟩ :=
  ((claim_C4_packageManagerPriority true true _).1).trans (by decide)

/-- C5: loadTemplates raises the no-valid-templates error exactly when no
registry entry passes validateTemplate, and otherwise returns exactly the
passing entries, in registry declaration order (a stable filter). -/
theorem claim_C5_loadTemplates (urlOk : String → Bool) (registry : List Template) :
    (loadTemplates urlOk registry =
        Except.error ⟨"No valid templates found", "NO_TEMPLATES", 1⟩ ↔
      ∀ t ∈ registry, (validateTemplate urlOk t).valid = false) ∧
    (∀ ts, loadTemplates urlOk registry = Except.ok ts →
      ts = registry.filter (fun t => (validateTemplate urlOk t).valid) ∧
      ts.Sublist registry ∧
      ∀ t, t ∈ ts ↔ t ∈ registry ∧ (validateTemplate urlOk t).valid = true) ∧
    ((∃ t ∈ registry, (validateTemplate urlOk t).valid = true) →
      ∃ ts, loadTemplates urlOk registry = Except.ok ts) := by
  unfold loadTemplates
  by_cases h : (registry.filter fun t => (validateTemplate urlOk t).valid).length = 0
  · rw [if_pos h]
    rw [List.length_eq_zero, List.filter_eq_nil_iff] at h
    refine ⟨?_, ?_, ?_⟩
    · exact ⟨fun _ t ht => by simpa using h t ht, fun _ => rfl⟩
    · intro ts hts
      exact absurd hts (by simp)
    · rintro ⟨t, ht, hv⟩
      exact absurd hv (by simpa using h t ht)
  · rw [if_neg h]
    refine ⟨?_, ?_, ?_⟩
    · constructor
      · intro he
        exact absurd he (by simp)
      · intro hall
        exfalso
        apply h
        rw [List.length_eq_zero, List.filter_eq_nil_iff]
        intro t ht
        simp [hall t ht]
    · intro ts hts
      have : ts = registry.filter fun t => (validateTemplate urlOk t).valid := by
        injection hts.symm
      subst this
      exact ⟨rfl, List.filter_sublist registry, fun t => by
        rw [List.mem_filter]⟩
    · intro _
      exact ⟨_, rfl⟩

theorem claim_C5_witness :
    loadTemplates (fun _ => false) BUILT_IN_TEMPLATES =
      Except.error ⟨"No valid templates found", "NO_TEMPLATES", 1⟩ ∧
    loadTemplates (fun _ => true) BUILT_IN_TEMPLATES = Except.ok BUILT_IN_TEMPLATES := by
  constructor
  · exact (claim_C5_loadTemplates (fun _ => false) BUILT_IN_TEMPLATES).1.mpr (by decide)
  · have h := (claim_C5_loadTemplates (fun _ => true) BUILT_IN_TEMPLATES).2.2
      ⟨BUILT_IN_TEMPLATES[0], by decide, by decide⟩
    obtain ⟨ts, hts⟩ := h
    have h2 := (claim_C5_loadTemplates (fun _ => true) BUILT_IN_TEMPLATES).2.1 ts hts
    rw [hts, h2.1]
    have he : (BUILT_IN_TEMPLATES.filter fun t => (validateTemplate (fun _ => true) t).valid) =
        BUILT_IN_TEMPLATES := by decide
    rw [he]

/-- C10: in template selection, an input line is accepted whenever the
base-10 integer parse of its trimmed prefix lies in [1, length] - even
with trailing non-numeric characters, as in "2abc" and "1.9" - and the
returned template is the one at that 1-based position; a line that parses
out of range or not as a number moves on to the next prompt instead of
failing. -/
theorem claim_C10_selectTemplate (templates : List Template) (t1 t2 : Template)
    (ans : String) (rest : List String) :
    (∀ k : Int, jsParseInt (jsTrim ans) = some k → 1 ≤ k → k ≤ (templates.length : Int) →
      selectTemplate templates (ans :: rest) = templates[(k - 1).toNat]? ∧
      (templates[(k - 1).toNat]?).isSome = true) ∧
    (jsParseInt (jsTrim ans) = none →
      selectTemplate templates (ans :: rest) = selectTemplate templates rest) ∧
    (∀ k : Int, jsParseInt (jsTrim ans) = some k →
      (k < 1 ∨ (templates.length : Int) < k) →
      selectTemplate templates (ans :: rest) = selectTemplate templates rest) ∧
    jsParseInt "2abc" = some 2 ∧ jsParseInt "1.9" = some 1 ∧
    selectTemplate [t1, t2] ["2abc"] = some t2 ∧
    selectTemplate [t1, t2] ["1.9"] = some t1 := by
  refine ⟨?_, ?_, ?_, by decide, by decide, ?_, ?_⟩
  · intro k hk h1 h2
    simp only [selectTemplate, hk]
    rw [if_pos ⟨h1, h2⟩]
    refine ⟨rfl, ?_⟩
    rw [List.getElem?_eq_getElem (by omega)]
    rfl
  · intro hk
    simp only [selectTemplate, hk]
  · intro k hk hout
    simp only [selectTemplate, hk]
    rw [if_neg]
    rintro ⟨ha, hb⟩
    rcases hout with h | h
    · omega
    · omega
  · simp only [selectTemplate, show jsParseInt (jsTrim "2abc") = some 2 from by decide]
    norm_num
  · simp only [selectTemplate, show jsParseInt (jsTrim "1.9") = some 1 from by decide]
    norm_num

theorem confirmPrompted_tail (a b c : Bool) (m : Option (Option PackageJson)) (w : Bool)
    (pn : String) (i : Bool) (exec : String → Bool) :
    Event.confirmPrompted ∉
      (cloneTemplate a b c).2 ++ (updatePackageJson m w pn).2.2 ++
        (installDependencies i).2 ++ (initGitRepository exec).2 ++ [Event.successShown] := by
  intro hmem
  simp only [List.mem_append] at hmem
  rcases hmem with (((h | h) | h) | h) | h
  · rcases clone_events_enum a b c with he | he <;> rw [he] at h <;> simp at h
  · rcases update_events_enum m w pn with he | he | ⟨pj, he⟩ <;> rw [he] at h <;> simp at h
  · simp [installDependencies] at h
  · rw [initGitRepository] at h
    rcases git_events_shape exec gitInitCommands _ h with ⟨d, _, he⟩ | ⟨d, _, he⟩ <;> simp at he
  · simp at h

/-- C2 counterexample: with arguments ["--list"] and the runtime probe
failing, the run exits 1 without ever printing the template catalog, so
the list flag is not handled before the requirement probe. -/
theorem claim_C2_counterexample :
    (parseFlags envListNoNode.argv).list = true ∧
    mainFlow envListNoNode = ([Event.requirementsChecked], Outcome.exited 1) ∧
    Event.listShown ∉ (mainFlow envListNoNode).1 := by decide

/-- C2 amended: when the list flag is present (and the help flag absent),
the catalog is printed and the process exits 0 before any prompting,
cloning or filesystem mutation - but only after the requirement probe and
template load succeed; a missing runtime, a missing version-control
client, or a missing package manager each still exit 1 before the list
flag is ever consulted, so also when it is present. -/
theorem claim_C2_listAfterProbe (env : Env) (ts : List Template)
    (hh : (parseFlags env.argv).help = false)
    (hl : (parseFlags env.argv).list = true)
    (hn : env.nodeAvailable = true)
    (hg : env.gitAvailable = true)
    (hpm : (checkRequirements env.nodeAvailable env.gitAvailable
      env.pmAvailable).packageManager.isSome = true)
    (hlt : loadTemplates env.urlOk env.registry = Except.ok ts) :
    mainFlow env = ([Event.requirementsChecked, Event.listShown], Outcome.exited 0) ∧
    (∀ env2 : Env, (parseFlags env2.argv).help = false → env2.nodeAvailable = false →
      mainFlow env2 = ([Event.requirementsChecked], Outcome.exited 1)) ∧
    (∀ env2 : Env, (parseFlags env2.argv).help = false → env2.nodeAvailable = true →
      env2.gitAvailable = false →
      mainFlow env2 = ([Event.requirementsChecked], Outcome.exited 1)) ∧
    (∀ env2 : Env, (parseFlags env2.argv).help = false → env2.nodeAvailable = true →
      env2.gitAvailable = true →
      (checkRequirements env2.nodeAvailable env2.gitAvailable
        env2.pmAvailable).packageManager = none →
      mainFlow env2 = ([Event.requirementsChecked], Outcome.exited 1)) := by
  refine ⟨?_, ?_, ?_, ?_⟩
  · obtain ⟨pm, hpm'⟩ := Option.isSome_iff_exists.mp hpm
    unfold mainFlow
    rw [if_neg (by rw [hh]; exact Bool.false_ne_true)]
    rw [if_neg (show ¬((checkRequirements env.nodeAvailable env.gitAvailable
      env.pmAvailable).node = false) by simp [checkRequirements, hn])]
    rw [if_neg (show ¬((checkRequirements env.nodeAvailable env.gitAvailable
      env.pmAvailable).git = false) by simp [checkRequirements, hg])]
    rw [hpm', hlt]
    simp [hl]
  · intro env2 hh2 hn2
    unfold mainFlow
    rw [if_neg (by rw [hh2]; exact Bool.false_ne_true)]
    rw [if_pos (show (checkRequirements env2.nodeAvailable env2.gitAvailable
      env2.pmAvailable).node = false by simp [checkRequirements, hn2])]
  · intro env2 hh2 hn2 hg2
    unfold mainFlow
    rw [if_neg (by rw [hh2]; exact Bool.false_ne_true)]
    rw [if_neg (show ¬((checkRequirements env2.nodeAvailable env2.gitAvailable
      env2.pmAvailable).node = false) by simp [checkRequirements, hn2])]
    rw [if_pos (show (checkRequirements env2.nodeAvailable env2.gitAvailable
      env2.pmAvailable).git = false by simp [checkRequirements, hg2])]
  · intro env2 hh2 hn2 hg2 hpm2
    unfold mainFlow
    rw [if_neg (by rw [hh2]; exact Bool.false_ne_true)]
    rw [if_neg (show ¬((checkRequirements env2.nodeAvailable env2.gitAvailable
      env2.pmAvailable).node = false) by simp [checkRequirements, hn2])]
    rw [if_neg (show ¬((checkRequirements env2.nodeAvailable env2.gitAvailable
      env2.pmAvailable).git = false) by simp [checkRequirements, hg2])]
    rw [hpm2]

theorem claim_C2_witness :
    mainFlow envListOk = ([Event.requirementsChecked, Event.listShown], Outcome.exited 0) ∧
    mainFlow envListNoNode = ([Event.requirementsChecked], Outcome.exited 1) ∧
    mainFlow envListNoGit = ([Event.requirementsChecked], Outcome.exited 1) ∧
    mainFlow envListNoPm = ([Event.requirementsChecked], Outcome.exited 1) := by
  have h := claim_C2_listAfterProbe envListOk BUILT_IN_TEMPLATES (by decide) (by decide)
    (by decide) (by decide) (by decide) (by decide)
  exact ⟨h.1, h.2.1 envListNoNode (by decide) (by decide),
    h.2.2.1 envListNoGit (by decide) (by decide) (by decide),
    h.2.2.2 envListNoPm (by decide) (by decide) (by decide) (by decide)⟩

/-- C1 counterexample: in a world where the clone succeeds, the cloned
tree has a .git directory and removing it fails, the run exits 1 and the
manifest-rewrite step is never reached - the metadata-removal failure is
not a soft failure. -/
theorem claim_C1_counterexample :
    envRmGitFails.gitCloneOk = true ∧ envRmGitFails.gitDirExists = true ∧
    envRmGitFails.rmGitOk = false ∧
    (mainFlow envRmGitFails).2 = Outcome.exited 1 ∧
    Event.manifestChecked ∉ (mainFlow envRmGitFails).1 := by decide

/-- C1 amended: whenever the clone succeeds but removal of the cloned
.git directory fails, cloneTemplate reports failure and the orchestrator
aborts with exit code 1 before the manifest-rewrite step. -/
theorem claim_C1_gitCleanFailureAborts (env : Env) (ts : List Template) (pn : String)
    (t : Template)
    (hh : (parseFlags env.argv).help = false)
    (hn : env.nodeAvailable = true)
    (hg : env.gitAvailable = true)
    (hpm : (checkRequirements env.nodeAvailable env.gitAvailable
      env.pmAvailable).packageManager.isSome = true)
    (hlt : loadTemplates env.urlOk env.registry = Except.ok ts)
    (hl : (parseFlags env.argv).list = false)
    (hpn : projectNameArg env.argv = some pn)
    (hv : (isValidProjectName pn).valid = true)
    (hcoll : (handleCollision env.dirExists (parseFlags env.argv).force env.confirmAnswer).2 = false)
    (hsel : selectTemplate ts env.selectInputs = some t)
    (hclone : env.gitCloneOk = true)
    (hgd : env.gitDirExists = true)
    (hrm : env.rmGitOk = false) :
    (mainFlow env).2 = Outcome.exited 1 ∧
    Event.manifestChecked ∉ (mainFlow env).1 := by
  have hct : cloneTemplate env.gitCloneOk env.gitDirExists env.rmGitOk =
      (false, [Event.gitCloneRun]) := by
    rw [hclone, hgd, hrm]; decide
  rw [mainFlow_reduce env ts pn hh hn hg hpm hlt hl hpn hv]
  simp only [hcoll, hsel, hct, Bool.false_eq_true, if_false, if_true]
  constructor
  · trivial
  · intro hmem
    simp only [List.mem_append] at hmem
    rcases hmem with ((h | h) | h) | h
    · simp at h
    · rcases handleCollision_enum env.dirExists (parseFlags env.argv).force env.confirmAnswer
        with he | he | he | he <;> rw [he] at h <;> simp at h
    · simp at h
    · simp at h

theorem claim_C1_witness :
    (mainFlow envRmGitFails).2 = Outcome.exited 1 ∧
    Event.manifestChecked ∉ (mainFlow envRmGitFails).1 :=
  claim_C1_gitCleanFailureAborts envRmGitFails BUILT_IN_TEMPLATES "my-dapp"
    BUILT_IN_TEMPLATES[0] (by decide) (by decide) (by decide) (by decide) (by decide)
    (by decide) (by decide) (by decide) (by decide) (by decide) (by decide) (by decide)
    (by decide)

/-- C6: when the target directory exists, the force flag removes it with
no confirmation prompt and the run proceeds to template selection; without
the force flag a non-affirmative answer aborts with exit code 1 and no
filesystem mutation; and an answer is affirmative exactly when its
trimmed, case-insensitive form is "y" or "yes". -/
theorem claim_C6_collision (env : Env) (ts : List Template) (pn : String)
    (hh : (parseFlags env.argv).help = false)
    (hn : env.nodeAvailable = true)
    (hg : env.gitAvailable = true)
    (hpm : (checkRequirements env.nodeAvailable env.gitAvailable
      env.pmAvailable).packageManager.isSome = true)
    (hlt : loadTemplates env.urlOk env.registry = Except.ok ts)
    (hl : (parseFlags env.argv).list = false)
    (hpn : projectNameArg env.argv = some pn)
    (hv : (isValidProjectName pn).valid = true)
    (hex : env.dirExists = true) :
    ((parseFlags env.argv).force = true →
      ∃ rest, (mainFlow env).1 =
          [Event.requirementsChecked, Event.dirRemoved, Event.templatePrompted] ++ rest ∧
        Event.confirmPrompted ∉ (mainFlow env).1) ∧
    ((parseFlags env.argv).force = false → confirmAction env.confirmAnswer = false →
      mainFlow env = ([Event.requirementsChecked, Event.confirmPrompted], Outcome.exited 1) ∧
      Event.dirRemoved ∉ (mainFlow env).1) ∧
    (∀ answer : String, confirmAction answer = true ↔
      (jsToLower (jsTrim answer) = "y" ∨ jsToLower (jsTrim answer) = "yes")) := by
  refine ⟨?_, ?_, confirmAction_iff⟩
  · intro hf
    have hco : handleCollision env.dirExists (parseFlags env.argv).force env.confirmAnswer =
        ([Event.dirRemoved], false) := by
      rw [hex, hf]; rfl
    rw [mainFlow_reduce env ts pn hh hn hg hpm hlt hl hpn hv]
    simp only [hco, Bool.false_eq_true, if_false]
    cases hsel : selectTemplate ts env.selectInputs with
    | none =>
      refine ⟨[], by simp, ?_⟩
      simp
    | some t =>
      cases hcl : (cloneTemplate env.gitCloneOk env.gitDirExists env.rmGitOk).1 with
      | false =>
        simp only [hcl, if_true]
        refine ⟨(cloneTemplate env.gitCloneOk env.gitDirExists env.rmGitOk).2, by simp, ?_⟩
        intro hmem
        simp only [List.mem_append] at hmem
        rcases hmem with ((h | h) | h) | h
        · simp at h
        · simp at h
        · simp at h
        · rcases clone_events_enum env.gitCloneOk env.gitDirExists env.rmGitOk
            with he | he <;> rw [he] at h <;> simp at h
      | true =>
        simp only [hcl, Bool.true_eq_false, if_false]
        refine ⟨(cloneTemplate env.gitCloneOk env.gitDirExists env.rmGitOk).2 ++
          (updatePackageJson env.manifest env.writeOk pn).2.2 ++
          (installDependencies env.installOk).2 ++ (initGitRepository env.gitExec).2 ++
          [Event.successShown], by simp, ?_⟩
        intro hmem
        simp only [List.mem_append] at hmem
        rcases hmem with (((((((h | h) | h) | h) | h) | h) | h) | h)
        · simp at h
        · simp at h
        · simp at h
        · rcases clone_events_enum env.gitCloneOk env.gitDirExists env.rmGitOk
            with he | he <;> rw [he] at h <;> simp at h
        · rcases update_events_enum env.manifest env.writeOk pn
            with he | he | ⟨pj, he⟩ <;> rw [he] at h <;> simp at h
        · simp [installDependencies] at h
        · rw [initGitRepository] at h
          rcases git_events_shape env.gitExec gitInitCommands _ h
            with ⟨d, _, he⟩ | ⟨d, _, he⟩ <;> simp at he
        · simp at h
  · intro hf ha
    have hco : handleCollision env.dirExists (parseFlags env.argv).force env.confirmAnswer =
        ([Event.confirmPrompted], true) := by
      rw [hex, hf]
      unfold handleCollision
      simp [ha]
    rw [mainFlow_reduce env ts pn hh hn hg hpm hlt hl hpn hv]
    simp only [hco, if_true]
    exact ⟨rfl, by simp⟩

theorem claim_C6_witness :
    mainFlow envDeclined = ([Event.requirementsChecked, Event.confirmPrompted],
      Outcome.exited 1) ∧
    Event.dirRemoved ∉ (mainFlow envDeclined).1 ∧
    (confirmAction "  YES " = true ↔
      (jsToLower (jsTrim "  YES ") = "y" ∨ jsToLower (jsTrim "  YES ") = "yes")) := by
  have h := claim_C6_collision envDeclined BUILT_IN_TEMPLATES "my-dapp" (by decide) (by decide)
    (by decide) (by decide) (by decide) (by decide) (by decide) (by decide) (by decide)
  have h2 := h.2.1 (by decide) (by decide)
  exact ⟨h2.1, h2.2, h.2.2 "  YES "⟩

theorem lookup_filter_ne (scr : List (String × String)) (k : String) :
    (scr.filter fun p => p.1 != k).lookup k = none := by
  induction scr with
  | nil => rfl
  | cons p ps ih =>
    obtain ⟨pk, pv⟩ := p
    rw [List.filter_cons]
    split
    · rename_i hcond
      have hcond' : ¬ pk = k := by simpa using hcond
      have hbeq : (k == pk) = false := by
        simp only [beq_eq_false_iff_ne, ne_eq]
        exact fun he => hcond' he.symm
      simp [List.lookup, hbeq, ih]
    · exact ih

/-- C7 counterexample: a manifest whose scripts.postinstall entry is
present with the empty string as value is rewritten with that entry still
in place - the present entry is not deleted. -/
theorem claim_C7_counterexample :
    (List.lookup "postinstall" [("postinstall", "")]).isSome = true ∧
    (updatePackageJson (some (some ⟨"template", "1.0.0", some [("postinstall", "")]⟩))
        true "my-app").2.1 =
      some ⟨"my-app", "0.1.0", some [("postinstall", "")]⟩ := by decide

/-- C7 amended: when a package.json parses, the rewrite sets its name to
the project name, resets its version to "0.1.0", deletes the
scripts.postinstall entry when it is present with a non-empty value (an
entry with an empty-string value is left in place, per JS truthiness),
and writes the file; a missing manifest, a parse failure or a write
failure only warns, and the run continues to dependency installation
either way. -/
theorem claim_C7_manifestRewrite (pj : PackageJson) (pn : String) (w : Bool) (env : Env)
    (ts : List Template) (pn2 : String) (t : Template)
    (hh : (parseFlags env.argv).help = false)
    (hn : env.nodeAvailable = true)
    (hg : env.gitAvailable = true)
    (hpm : (checkRequirements env.nodeAvailable env.gitAvailable
      env.pmAvailable).packageManager.isSome = true)
    (hlt : loadTemplates env.urlOk env.registry = Except.ok ts)
    (hl : (parseFlags env.argv).list = false)
    (hpn : projectNameArg env.argv = some pn2)
    (hv : (isValidProjectName pn2).valid = true)
    (hcoll : (handleCollision env.dirExists (parseFlags env.argv).force
      env.confirmAnswer).2 = false)
    (hsel : selectTemplate ts env.selectInputs = some t)
    (hcl : (cloneTemplate env.gitCloneOk env.gitDirExists env.rmGitOk).1 = true) :
    (updatePackageJson (some (some pj)) true pn =
      (true, some (rewriteManifest pj pn),
        [Event.manifestChecked, Event.manifestWritten (rewriteManifest pj pn)])) ∧
    ((rewriteManifest pj pn).name = pn ∧ (rewriteManifest pj pn).version = "0.1.0") ∧
    (∀ scr v, pj.scripts = some scr → scr.lookup "postinstall" = some v → v ≠ "" →
      ∃ scr', (rewriteManifest pj pn).scripts = some scr' ∧ scr'.lookup "postinstall" = none) ∧
    (∀ scr, pj.scripts = some scr → scr.lookup "postinstall" = some "" →
      (rewriteManifest pj pn).scripts = some scr) ∧
    (updatePackageJson none w pn = (false, none, [Event.manifestChecked, Event.manifestWarned])) ∧
    (updatePackageJson (some none) w pn =
      (false, none, [Event.manifestChecked, Event.manifestFailed])) ∧
    (updatePackageJson (some (some pj)) false pn =
      (false, none, [Event.manifestChecked, Event.manifestFailed])) ∧
    ((mainFlow env).2 = Outcome.exited 0 ∧ Event.installRun ∈ (mainFlow env).1) := by
  refine ⟨rfl, ⟨rfl, rfl⟩, ?_, ?_, rfl, rfl, rfl, ?_⟩
  · intro scr v hscr hlook hne
    have hback : hasPostinstall (some scr) = true := by
      simp only [hasPostinstall]
      rw [hlook]
      simpa using hne
    refine ⟨scr.filter fun p => p.1 != "postinstall", ?_, lookup_filter_ne scr "postinstall"⟩
    unfold rewriteManifest
    simp only [hscr, hback, if_true]
  · intro scr hscr hlook
    have hback : hasPostinstall (some scr) = false := by
      simp only [hasPostinstall]
      rw [hlook]
      simp
    unfold rewriteManifest
    simp only [hscr, hback, Bool.false_eq_true, if_false]
  · rw [mainFlow_reduce env ts pn2 hh hn hg hpm hlt hl hpn hv]
    simp only [hcoll, hsel, hcl, Bool.false_eq_true, Bool.true_eq_false, if_false]
    refine ⟨trivial, ?_⟩
    simp [installDependencies]

theorem claim_C7_witness :
    (updatePackageJson envNoManifest.manifest true "my-dapp" =
      (false, none, [Event.manifestChecked, Event.manifestWarned])) ∧
    (mainFlow envNoManifest).2 = Outcome.exited 0 ∧
    Event.installRun ∈ (mainFlow envNoManifest).1 := by
  have h := claim_C7_manifestRewrite ⟨"t", "1.0.0", none⟩ "x" true envNoManifest
    BUILT_IN_TEMPLATES "my-dapp" BUILT_IN_TEMPLATES[0] (by decide) (by decide) (by decide)
    (by decide) (by decide) (by decide) (by decide) (by decide) (by decide) (by decide)
    (by decide)
  exact ⟨h.2.2.2.2.1, h.2.2.2.2.2.2.2⟩

/-- C8: the version-control initialization step runs exactly the three
commands init, stage-all and commit-with-the-fixed-message, in that
order; the first failing command stops the remaining commands of the step
and is logged, but the overall run still prints the success summary and
exits 0. -/
theorem claim_C8_gitInit (env : Env) (ts : List Template) (pn : String) (t : Template)
    (hh : (parseFlags env.argv).help = false)
    (hn : env.nodeAvailable = true)
    (hg : env.gitAvailable = true)
    (hpm : (checkRequirements env.nodeAvailable env.gitAvailable
      env.pmAvailable).packageManager.isSome = true)
    (hlt : loadTemplates env.urlOk env.registry = Except.ok ts)
    (hl : (parseFlags env.argv).list = false)
    (hpn : projectNameArg env.argv = some pn)
    (hv : (isValidProjectName pn).valid = true)
    (hcoll : (handleCollision env.dirExists (parseFlags env.argv).force
      env.confirmAnswer).2 = false)
    (hsel : selectTemplate ts env.selectInputs = some t)
    (hcl : (cloneTemplate env.gitCloneOk env.gitDirExists env.rmGitOk).1 = true) :
    (gitInitCommands = ["git init", "git add .", gitCommitCommand]) ∧
    (∀ exec : String → Bool,
      initGitRepository exec =
        if exec "git init" = false then
          (false, [Event.gitCmd "git init", Event.gitStepFailedAt "git init"])
        else if exec "git add ." = false then
          (false, [Event.gitCmd "git init", Event.gitCmd "git add .",
            Event.gitStepFailedAt "git add ."])
        else if exec gitCommitCommand = false then
          (false, [Event.gitCmd "git init", Event.gitCmd "git add .",
            Event.gitCmd gitCommitCommand, Event.gitStepFailedAt gitCommitCommand])
        else (true, [Event.gitCmd "git init", Event.gitCmd "git add .",
          Event.gitCmd gitCommitCommand])) ∧
    ((mainFlow env).2 = Outcome.exited 0 ∧ Event.successShown ∈ (mainFlow env).1) := by
  refine ⟨rfl, ?_, ?_⟩
  · intro exec
    unfold initGitRepository gitInitCommands
    cases h1 : exec "git init" with
    | false => simp [runGitCommands, h1]
    | true =>
      cases h2 : exec "git add ." with
      | false => simp [runGitCommands, h1, h2]
      | true =>
        cases h3 : exec gitCommitCommand with
        | false => simp [runGitCommands, h1, h2, h3]
        | true => simp [runGitCommands, h1, h2, h3]
  · rw [mainFlow_reduce env ts pn hh hn hg hpm hlt hl hpn hv]
    simp only [hcoll, hsel, hcl, Bool.false_eq_true, Bool.true_eq_false, if_false]
    exact ⟨trivial, by simp⟩

theorem claim_C8_witness :
    initGitRepository envGitAddFails.gitExec =
      (false, [Event.gitCmd "git init", Event.gitCmd "git add .",
        Event.gitStepFailedAt "git add ."]) ∧
    (mainFlow envGitAddFails).2 = Outcome.exited 0 ∧
    Event.successShown ∈ (mainFlow envGitAddFails).1 := by
  have h := claim_C8_gitInit envGitAddFails BUILT_IN_TEMPLATES "my-dapp" BUILT_IN_TEMPLATES[0]
    (by decide) (by decide) (by decide) (by decide) (by decide) (by decide) (by decide)
    (by decide) (by decide) (by decide) (by decide)
  refine ⟨?_, h.2.2⟩
  rw [h.2.1 envGitAddFails.gitExec]
  decide

theorem claim_C9_witness :
    sanitizeProjectName (sanitizeProjectName "My App__1!") = sanitizeProjectName "My App__1!" ∧
    (sanitizeProjectName "My App__1!").data.head? ≠ some '-' ∧
    (sanitizeProjectName "My App__1!").data.getLast? ≠ some '-' :=
  ⟨(claim_C9_sanitizeProjectName "My App__1!").1,
   (claim_C9_sanitizeProjectName "My App__1!").2.2.2.1,
   (claim_C9_sanitizeProjectName "My App__1!").2.2.2.2⟩

theorem claim_C10_witness :
    selectTemplate BUILT_IN_TEMPLATES ["1"] = some BUILT_IN_TEMPLATES[0] ∧
    selectTemplate BUILT_IN_TEMPLATES ["2"] = selectTemplate BUILT_IN_TEMPLATES [] := by
  constructor
  · have h := ((claim_C10_selectTemplate BUILT_IN_TEMPLATES ⟨"a", "b", "c", []⟩
      ⟨"a", "b", "c", []⟩ "1" []).1 1 (by decide) (by decide) (by decide)).1
    rw [h]
    decide
  · exact (claim_C10_selectTemplate BUILT_IN_TEMPLATES ⟨"a", "b", "c", []⟩
      ⟨"a", "b", "c", []⟩ "2" []).2.2.1 2 (by decide) (by right; decide)
